import Mathlib

/-!
Verification of the setuptools rendering plugin (`setup.py` / `MANIFEST.in`
generator and sdist build driver).

Strings are modelled as `List Char`.  Python string primitives used by the
plugin (`str.find`, slicing, `str.replace`, `str.strip`, `repr`, `in`,
`os.path.join`) are embedded as executable Lean functions; the filesystem and
the external build subprocess are passed explicitly as state.
-/

set_option maxRecDepth 4000

namespace Shut

/-- Python substring-at-start test: `isPre sub l` holds when `l` starts with `sub`. -/
def isPre : List Char → List Char → Bool
  | [], _ => true
  | _ :: _, [] => false
  | a :: as, b :: bs => a == b && isPre as bs

/-- Python substring test (`sub in s`): some position of `s` starts with `sub`. -/
def occursIn (sub : List Char) : List Char → Bool
  | [] => isPre sub []
  | c :: rest => isPre sub (c :: rest) || occursIn sub rest

/-- Bounded linear search for the least index `i` (starting at `i`, up to `fuel`
more candidates) where `sub` occurs in `s`; embeds the scan of `str.find`. -/
def findAux (s sub : List Char) : Nat → Nat → Option Nat
  | _, 0 => none
  | i, fuel + 1 => if isPre sub (s.drop i) then some i else findAux s sub (i + 1) fuel

/-- Python `s.find(sub, start)`: least `i` with `start ≤ i ≤ s.length` such that
`sub` occurs at `i`; `none` models the return value `-1`. -/
def strFind (s sub : List Char) (start : Nat) : Option Nat :=
  findAux s sub start (s.length + 1 - start)

theorem isPre_nil_left (l : List Char) : isPre [] l = true := rfl

theorem isPre_self_app (a t : List Char) : isPre a (a ++ t) = true := by
  induction a with
  | nil => rfl
  | cons c as ih => simp [isPre, ih]

theorem isPre_iff_ex (a l : List Char) : isPre a l = true ↔ ∃ t, l = a ++ t := by
  induction a generalizing l with
  | nil => simp [isPre]
  | cons c as ih =>
    cases l with
    | nil => simp [isPre]
    | cons d ls =>
      simp only [isPre, Bool.and_eq_true, beq_iff_eq, ih]
      constructor
      · rintro ⟨rfl, t, rfl⟩; exact ⟨t, rfl⟩
      · rintro ⟨t, h⟩
        injection h with h1 h2
        exact ⟨h1.symm, t, h2⟩

theorem isPre_length_le {a l : List Char} (h : isPre a l = true) : a.length ≤ l.length := by
  rcases (isPre_iff_ex a l).1 h with ⟨t, rfl⟩
  simp

theorem isPre_false_of_head {c d : Char} {as ls : List Char} (h : c ≠ d) :
    isPre (c :: as) (d :: ls) = false := by
  simp [isPre, h]

theorem isPre_head_mem {c : Char} {as l : List Char} (h : isPre (c :: as) l = true) : c ∈ l := by
  rcases (isPre_iff_ex _ l).1 h with ⟨t, rfl⟩
  simp

theorem isPre_trans {a b l : List Char} (h1 : isPre a b = true) (h2 : isPre b l = true) :
    isPre a l = true := by
  rcases (isPre_iff_ex b l).1 h2 with ⟨t, rfl⟩
  rcases (isPre_iff_ex a b).1 h1 with ⟨u, rfl⟩
  rw [List.append_assoc]
  exact isPre_self_app _ _

theorem isPre_app_long {a x : List Char} (y : List Char) (h : a.length ≤ x.length) :
    isPre a (x ++ y) = isPre a x := by
  induction a generalizing x with
  | nil => rfl
  | cons c as ih =>
    cases x with
    | nil => simp at h
    | cons d xs =>
      simp only [List.cons_append, isPre]
      rw [show xs.append y = xs ++ y from rfl, ih (by simpa using h)]

theorem occursIn_of_isPre {sub s : List Char} (h : isPre sub s = true) :
    occursIn sub s = true := by
  cases s with
  | nil => simpa [occursIn] using h
  | cons c rest => simp [occursIn, h]

theorem occursIn_app_right {sub t : List Char} (x : List Char) (h : occursIn sub t = true) :
    occursIn sub (x ++ t) = true := by
  induction x with
  | nil => exact h
  | cons c xs ih => simp [occursIn, ih]

theorem occursIn_false_head_notMem {h0 : Char} {tl s : List Char} (h : h0 ∉ s) :
    occursIn (h0 :: tl) s = false := by
  induction s with
  | nil => rfl
  | cons c rest ih =>
    have hne : h0 ≠ c := fun he => h (he ▸ List.mem_cons_self c rest)
    simp [occursIn, isPre_false_of_head hne, ih (fun hm => h (List.mem_cons_of_mem c hm))]

theorem occursIn_app_no_head {h0 : Char} {tl a : List Char} (s : List Char) (h : h0 ∉ a) :
    occursIn (h0 :: tl) (a ++ s) = occursIn (h0 :: tl) s := by
  induction a with
  | nil => rfl
  | cons c as ih =>
    have hne : h0 ≠ c := fun he => h (he ▸ List.mem_cons_self c as)
    simp [occursIn, isPre_false_of_head hne, ih (fun hm => h (List.mem_cons_of_mem c hm))]

theorem occursIn_mono {p q s : List Char} (hpq : isPre p q = true)
    (h : occursIn q s = true) : occursIn p s = true := by
  induction s with
  | nil =>
    simp only [occursIn] at h ⊢
    exact isPre_trans hpq h
  | cons c rest ih =>
    simp only [occursIn, Bool.or_eq_true] at h ⊢
    rcases h with h | h
    · exact Or.inl (isPre_trans hpq h)
    · exact Or.inr (ih h)

theorem findAux_eq_some {s sub : List Char} {i fuel k : Nat}
    (hik : i ≤ k) (hk : k < i + fuel)
    (hocc : isPre sub (s.drop k) = true)
    (hmin : ∀ j, i ≤ j → j < k → isPre sub (s.drop j) = false) :
    findAux s sub i fuel = some k := by
  induction fuel generalizing i with
  | zero => omega
  | succ fuel ih =>
    by_cases hi : i = k
    · subst hi
      simp [findAux, hocc]
    · have h1 : isPre sub (s.drop i) = false := hmin i le_rfl (by omega)
      simp only [findAux, h1, Bool.false_eq_true, if_false]
      exact ih (by omega) (by omega) (fun j hj1 hj2 => hmin j (by omega) hj2)

theorem findAux_eq_none {s sub : List Char} {i fuel : Nat}
    (h : ∀ j, i ≤ j → j < i + fuel → isPre sub (s.drop j) = false) :
    findAux s sub i fuel = none := by
  induction fuel generalizing i with
  | zero => rfl
  | succ fuel ih =>
    have h1 : isPre sub (s.drop i) = false := h i le_rfl (by omega)
    simp only [findAux, h1, Bool.false_eq_true, if_false]
    exact ih (fun j hj1 hj2 => h j (by omega) (by omega))

theorem strFind_eq_some {s sub : List Char} {start k : Nat}
    (h1 : start ≤ k) (h2 : k ≤ s.length)
    (hocc : isPre sub (s.drop k) = true)
    (hmin : ∀ j, start ≤ j → j < k → isPre sub (s.drop j) = false) :
    strFind s sub start = some k :=
  findAux_eq_some h1 (by omega) hocc hmin

theorem strFind_eq_none {s sub : List Char} {start : Nat}
    (h : ∀ j, start ≤ j → j ≤ s.length → isPre sub (s.drop j) = false) :
    strFind s sub start = none := by
  unfold strFind
  exact findAux_eq_none (fun j hj1 hj2 => h j hj1 (by omega))

theorem dropAppend (a b : List Char) (n : Nat) :
    (a ++ b).drop n = a.drop n ++ b.drop (n - a.length) := by
  induction a generalizing n with
  | nil => simp
  | cons c as ih =>
    cases n with
    | zero => simp
    | succ m => simpa using ih m

theorem takeAppend (a b : List Char) (n : Nat) :
    (a ++ b).take n = a.take n ++ b.take (n - a.length) := by
  induction a generalizing n with
  | nil => simp
  | cons c as ih =>
    cases n with
    | zero => simp
    | succ m => simpa using ih m

theorem drop_len_app (a b : List Char) : (a ++ b).drop a.length = b := by
  rw [dropAppend, List.drop_length, Nat.sub_self]
  simp

theorem take_len_app (a b : List Char) : (a ++ b).take a.length = a := by
  rw [takeAppend, List.take_length, Nat.sub_self]
  simp

theorem drop_len_app' {a : List Char} (b : List Char) {n : Nat} (h : a.length = n) :
    (a ++ b).drop n = b := h ▸ drop_len_app a b

theorem take_len_app' {a : List Char} (b : List Char) {n : Nat} (h : a.length = n) :
    (a ++ b).take n = a := h ▸ take_len_app a b

/-- Fuel-bounded worker for Python `str.replace`: scans left to right, replacing
each non-overlapping occurrence of `old` (when non-empty) with `new`. The fuel is
always at least the length of the scanned list, so it never runs out. -/
def pyReplaceAux (old new : List Char) : Nat → List Char → List Char
  | _, [] => []
  | 0, s => s
  | fuel + 1, c :: rest =>
    if old ≠ [] ∧ isPre old (c :: rest) = true then
      new ++ pyReplaceAux old new fuel (rest.drop (old.length - 1))
    else
      c :: pyReplaceAux old new fuel rest

/-- Python `s.replace(old, new)` for non-empty `old`: left-to-right,
non-overlapping replacement of every occurrence. -/
def pyReplace (old new s : List Char) : List Char :=
  pyReplaceAux old new s.length s

theorem pyReplaceAux_fuel (old new : List Char) :
    ∀ fuel s, s.length ≤ fuel →
      pyReplaceAux old new fuel s = pyReplaceAux old new s.length s := by
  intro fuel
  induction fuel using Nat.strong_induction_on with
  | _ fuel ih =>
    intro s hs
    cases s with
    | nil => simp [pyReplaceAux]
    | cons c rest =>
      cases fuel with
      | zero => simp at hs
      | succ fuel =>
      have hr : rest.length ≤ fuel := by simpa using hs
      show _ = pyReplaceAux old new (rest.length + 1) (c :: rest)
      simp only [pyReplaceAux]
      by_cases hc : old ≠ [] ∧ isPre old (c :: rest) = true
      · simp only [if_pos hc]
        have hlen : (rest.drop (old.length - 1)).length ≤ rest.length := by
          simp [List.length_drop]
        rw [ih fuel (by omega) _ (by omega),
          ih rest.length (by omega) _ (by omega)]
      · simp only [if_neg hc]
        rw [ih fuel (by omega) rest hr, ih rest.length (by omega) rest le_rfl]

theorem pyReplace_nil (old new : List Char) : pyReplace old new [] = [] := rfl

theorem pyReplace_cons (old new : List Char) (c : Char) (rest : List Char) :
    pyReplace old new (c :: rest) =
      if old ≠ [] ∧ isPre old (c :: rest) = true then
        new ++ pyReplace old new (rest.drop (old.length - 1))
      else
        c :: pyReplace old new rest := by
  show pyReplaceAux old new (rest.length + 1) (c :: rest) = _
  simp only [pyReplaceAux]
  by_cases hc : old ≠ [] ∧ isPre old (c :: rest) = true
  · simp only [if_pos hc]
    rw [pyReplaceAux_fuel old new rest.length _ (by simp [List.length_drop])]
    rfl
  · simp only [if_neg hc]
    rfl

theorem pyReplace_eq_self {old : List Char} (new : List Char) {s : List Char}
    (h : occursIn old s = false) : pyReplace old new s = s := by
  induction s with
  | nil => rfl
  | cons c rest ih =>
    simp only [occursIn, Bool.or_eq_false_iff] at h
    rw [pyReplace_cons, if_neg (fun hc => by simp [h.1] at hc), ih h.2]

theorem pyReplace_app_no_head {h0 : Char} {tl : List Char} (new : List Char)
    {a : List Char} (s : List Char) (h : h0 ∉ a) :
    pyReplace (h0 :: tl) new (a ++ s) = a ++ pyReplace (h0 :: tl) new s := by
  induction a with
  | nil => rfl
  | cons c as ih =>
    have hne : h0 ≠ c := fun he => h (he ▸ List.mem_cons_self c as)
    rw [List.cons_append, pyReplace_cons,
      if_neg (fun hc => by simp [isPre_false_of_head hne] at hc),
      ih (fun hm => h (List.mem_cons_of_mem c hm)), List.cons_append]

theorem pyReplace_match {h0 : Char} {tl : List Char} (new s : List Char) :
    pyReplace (h0 :: tl) new ((h0 :: tl) ++ s) = new ++ pyReplace (h0 :: tl) new s := by
  rw [List.cons_append, pyReplace_cons,
    if_pos ⟨by simp, by rw [← List.cons_append]; exact isPre_self_app _ _⟩]
  congr 1
  congr 1
  show (tl ++ s).drop ((tl.length + 1) - 1) = s
  simp only [Nat.add_sub_cancel]
  exact drop_len_app tl s

/-- Characters stripped by Python `str.strip()` (the ASCII whitespace set). -/
def isPySpace (c : Char) : Bool :=
  c = ' ' || c = '\t' || c = '\n' || c = '\r' || c = '\x0b' || c = '\x0c'

/-- Python `s.strip()`: removes leading and trailing whitespace. -/
def pyStrip (s : List Char) : List Char :=
  (((s.dropWhile isPySpace).reverse.dropWhile isPySpace).reverse)

theorem pyStrip_no_ws {c d : Char} (m : List Char)
    (hc : isPySpace c = false) (hd : isPySpace d = false) :
    pyStrip (c :: (m ++ [d])) = c :: (m ++ [d]) := by
  unfold pyStrip
  rw [List.dropWhile_cons_of_neg (by simp [hc])]
  rw [show (c :: (m ++ [d])).reverse = d :: (m.reverse ++ [c]) by simp]
  rw [List.dropWhile_cons_of_neg (by simp [hd])]
  simp

/-- Lowercase hex digit, as used by `repr`'s `\xhh` escapes. -/
def hexDigit (n : Nat) : Char :=
  if n < 10 then Char.ofNat (48 + n) else Char.ofNat (87 + n)

/-- Escaping of one character inside a Python `repr` string literal using
quote character `quote`. -/
def pyReprEscape (quote : Char) (c : Char) : List Char :=
  if c = '\\' then ['\\', '\\']
  else if c = quote then ['\\', quote]
  else if c = '\n' then ['\\', 'n']
  else if c = '\r' then ['\\', 'r']
  else if c = '\t' then ['\\', 't']
  else if c.toNat < 32 ∨ c.toNat = 127 then
    ['\\', 'x', hexDigit (c.toNat / 16), hexDigit (c.toNat % 16)]
  else [c]

/-- Flatten a list of lists (no separator). -/
def catLists {α : Type} : List (List α) → List α
  | [] => []
  | x :: xs => x ++ catLists xs

/-- Body of `repr` once the quote character is chosen. -/
def pyReprQuoted (quote : Char) (s : List Char) : List Char :=
  quote :: (catLists (s.map (pyReprEscape quote)) ++ [quote])

/-- Python `repr` of a string: quote choice (single quotes unless the string
contains `'` but no `"`) plus per-character escaping. -/
def pyRepr (s : List Char) : List Char :=
  pyReprQuoted (if s.contains '\'' && !(s.contains '"') then '"' else '\'') s

/-- Characters that `repr` passes through verbatim inside a single-quoted
literal: printable ASCII other than the backslash and the single quote. -/
def reprPlain (c : Char) : Prop :=
  c ≠ '\\' ∧ c ≠ '\'' ∧ 32 ≤ c.toNat ∧ c.toNat < 127

instance (c : Char) : Decidable (reprPlain c) := by
  unfold reprPlain; infer_instance

theorem contains_eq_false_of_notMem {c : Char} {s : List Char} (h : c ∉ s) :
    s.contains c = false := by
  induction s with
  | nil => rfl
  | cons d rest ih =>
    have hne : c ≠ d := fun he => h (he ▸ List.mem_cons_self d rest)
    simp only [List.contains_cons]
    rw [ih (fun hm => h (List.mem_cons_of_mem d hm))]
    simp [beq_iff_eq, hne]

theorem pyReprEscape_plain {c : Char} (h : reprPlain c) :
    pyReprEscape '\'' c = [c] := by
  obtain ⟨h1, h2, h3, h4⟩ := h
  have hn : c ≠ '\n' := by intro he; subst he; revert h3; decide
  have hr : c ≠ '\r' := by intro he; subst he; revert h3; decide
  have ht : c ≠ '\t' := by intro he; subst he; revert h3; decide
  unfold pyReprEscape
  rw [if_neg h1, if_neg h2, if_neg hn, if_neg hr, if_neg ht, if_neg (by omega)]

theorem catLists_map_escape {s : List Char} (h : ∀ c ∈ s, reprPlain c) :
    catLists (s.map (pyReprEscape '\'')) = s := by
  induction s with
  | nil => rfl
  | cons c rest ih =>
    simp only [List.map_cons, catLists,
      pyReprEscape_plain (h c (List.mem_cons_self c rest))]
    rw [ih (fun d hd => h d (List.mem_cons_of_mem c hd))]
    rfl

theorem pyRepr_plain {s : List Char} (h : ∀ c ∈ s, reprPlain c) :
    pyRepr s = '\'' :: (s ++ ['\'']) := by
  have hq : s.contains '\'' = false :=
    contains_eq_false_of_notMem (fun hm => (h _ hm).2.1 rfl)
  have hquote : (if s.contains '\'' && !(s.contains '"') then '"' else '\'') = '\'' := by
    rw [hq, Bool.false_and]
    rfl
  simp only [pyRepr, pyReprQuoted, hquote, catLists_map_escape h]

/-- `sep.join(parts)` from Python. -/
def joinSep (sep : List Char) : List (List Char) → List Char
  | [] => []
  | [x] => x
  | x :: y :: rest => x ++ sep ++ joinSep sep (y :: rest)

/-- Decimal digits of a natural number (Python `str(n)`), via bounded recursion. -/
def natToCharsAux : Nat → Nat → List Char → List Char
  | 0, _, acc => acc
  | fuel + 1, n, acc =>
    if n < 10 then Char.ofNat (48 + n) :: acc
    else natToCharsAux fuel (n / 10) (Char.ofNat (48 + n % 10) :: acc)

/-- Python `str(n)` for a natural number. -/
def natToChars (n : Nat) : List Char :=
  natToCharsAux (n + 1) n []

/-- Python `os.path.join(a, b)` for the cases arising here (`b` relative,
POSIX separators). -/
def pyJoin (a b : List Char) : List Char :=
  if a = [] then b
  else if a.getLast? = some '/' then a ++ b
  else a ++ '/' :: b

/-- `split_section(data, begin_marker, end_marker)` from the source:
`start = data.find(begin_marker)`, `end = data.find(end_marker, start)`; if both
are found, returns `(data[:start], data[start+len(begin_marker):end],
data[end+len(end_marker)+1:])`, otherwise `(data, '', '')`.  Note the second
`find` starts at the starting index of the begin marker, and the suffix
unconditionally skips one character after the end marker. -/
def split_section (data begin_marker end_marker : List Char) :
    List Char × List Char × List Char :=
  match strFind data begin_marker 0 with
  | none => (data, [], [])
  | some start =>
    match strFind data end_marker start with
    | none => (data, [], [])
    | some e =>
      (data.take start,
       (data.take e).drop (start + begin_marker.length),
       data.drop (e + end_marker.length + 1))

/-- `rewrite_section` from the source, a `contextlib.contextmanager` whose body
is `fp.write(prefix); fp.write(begin_marker+'\n'); yield fp;
fp.write(end_marker+'\n'); fp.write(suffix)` with no try/finally.  The result is
the full text written to `fp`: the caller's content `content` is written at the
yield point; when the caller raises (`caller_fails = true`) the exception is
re-thrown into the generator at the `yield`, so the statements after the yield
never run and the end marker and suffix are not written. -/
def rewrite_section (data begin_marker end_marker : List Char)
    (content : List Char) (caller_fails : Bool) : List Char :=
  let ps := split_section data begin_marker end_marker
  let written := ps.1 ++ begin_marker ++ ['\n'] ++ content
  if caller_fails then written
  else written ++ end_marker ++ ['\n'] ++ ps.2.2

/-- `SetuptoolsRenderer._BEGIN_SECTION`. -/
def BEGIN_SECTION : List Char := "# Auto-generated with shore. Do not edit. \x7b".data

/-- `SetuptoolsRenderer._END_SECTION`. -/
def END_SECTION : List Char := "# \x7d".data

/-- The managed-section body written by `_render_manifest`: one line per
manifest entry, `'{}\n'.format(entry)` each. -/
def manifestBody (manifest : List (List Char)) : List Char :=
  catLists (manifest.map (fun entry => entry ++ ['\n']))

/-- `SetuptoolsRenderer._render_manifest`: rewrites the managed marker section
of the current `MANIFEST.in` content, writing one line per manifest rule.  The
loop in the `with` body cannot raise, so the context manager runs to the end. -/
def render_manifest (current : List Char) (manifest : List (List Char)) : List Char :=
  rewrite_section current BEGIN_SECTION END_SECTION (manifestBody manifest) false

/-- The string value of `SetuptoolsRenderer._VERSION_REGEX`
(`'__version__\s*=\s*[\'"]([^\'"]+)[\'"]'`). -/
def VERSION_REGEX : List Char := "__version__\\s*=\\s*['\"]([^'\"]+)['\"]".data

/-- The regex source text emitted into the generated `setup.py` by
`_render_setup` (`r"__version__\s*=\s*'(.*)'"`). -/
def EMITTED_VERSION_PATTERN : List Char := "__version__\\s*=\\s*'(.*)'".data

/-- The literal `__version__` both patterns start with. -/
def VERSION_LIT : List Char := "__version__".data

/-- ASCII model of the regex class `\s`. -/
def isWS (c : Char) : Bool :=
  c = ' ' || c = '\t' || c = '\n' || c = '\r' || c = '\x0b' || c = '\x0c'

/-- Matching the pattern `__version__\s*=\s*['"]([^'"]+)['"]` (the value of
`_VERSION_REGEX`) against the start of `r`: the quantifiers are effectively
deterministic (`\s*` cannot eat `=` or a quote, `[^'"]+` cannot eat the closing
quote), so greedy scanning decides the match.  Returns the span of capture
group 1 relative to `r` plus the captured characters. -/
def matchVersionTail (r : List Char) : Option (Nat × Nat × List Char) :=
  if isPre VERSION_LIT r = true then
    let r1 := r.drop VERSION_LIT.length
    let w1 := (r1.takeWhile isWS).length
    match r1.drop w1 with
    | '=' :: r2 =>
      let w2 := (r2.takeWhile isWS).length
      match r2.drop w2 with
      | q :: r3 =>
        if q = '\'' ∨ q = '"' then
          let val := r3.takeWhile (fun c => !(c == '\'' || c == '"'))
          match r3.drop val.length with
          | q2 :: _ =>
            if 0 < val.length ∧ (q2 = '\'' ∨ q2 = '"') then
              some (VERSION_LIT.length + w1 + 1 + w2 + 1,
                    VERSION_LIT.length + w1 + 1 + w2 + 1 + val.length, val)
            else none
          | [] => none
        else none
      | [] => none
    | _ => none
  else none

/-- Generic leftmost scan used to embed `re.search`: try a matcher at
positions `i, i+1, …` for `fuel` attempts. -/
def searchAux {α : Type} (f : Nat → Option α) : Nat → Nat → Option α
  | _, 0 => none
  | i, fuel + 1 =>
    match f i with
    | some r => some r
    | none => searchAux f (i + 1) fuel

/-- `re.search(_VERSION_REGEX, s)`: leftmost match of the scanner pattern,
returning `(match.start(1), match.end(1), match.group(1))`. -/
def searchVersion (s : List Char) : Option (Nat × Nat × List Char) :=
  searchAux
    (fun i => (matchVersionTail (s.drop i)).map (fun r => (i + r.1, i + r.2.1, r.2.2)))
    0 (s.length + 1)

/-- Index of the first `'` in a list, if any. -/
def firstQuoteIdx : List Char → Option Nat
  | [] => none
  | c :: rest => if c = '\'' then some 0 else (firstQuoteIdx rest).map (· + 1)

/-- Index of the last `'` in a list, if any. -/
def lastQuoteIdx (l : List Char) : Option Nat :=
  (firstQuoteIdx l.reverse).map (fun k => l.length - 1 - k)

/-- Matching the pattern `__version__\s*=\s*'(.*)'` (the pattern text the
generated script passes to `re.search`) against the start of `r`.  `.` does not
match a newline and `.*` is greedy with backtracking, so group 1 runs from the
character after the opening `'` to the last `'` on the same line.  Returns
`match.group(1)`. -/
def matchEmittedTail (r : List Char) : Option (List Char) :=
  if isPre VERSION_LIT r = true then
    let r1 := r.drop VERSION_LIT.length
    match r1.drop (r1.takeWhile isWS).length with
    | '=' :: r2 =>
      match r2.drop (r2.takeWhile isWS).length with
      | '\'' :: r3 =>
        let line := r3.takeWhile (fun c => !(c == '\n'))
        match lastQuoteIdx line with
        | some j => some (line.take j)
        | none => none
      | _ => none
    | _ => none
  else none

/-- The version extraction performed at run time by the generated `setup.py`
(`re.search(r"__version__\s*=\s*'(.*)'", fp.read()).group(1)`), applied to the
entry file's content; `none` models the `AttributeError` raised on no match. -/
def searchEmitted (s : List Char) : Option (List Char) :=
  searchAux (fun i => matchEmittedTail (s.drop i)) 0 (s.length + 1)

/-- The version-extraction shim `_render_setup` writes into `setup.py`
(the dedented `with io.open({entrypoint_file!r}, …)` block with the entry file
path spliced in by `str.format`'s `!r` conversion). -/
def render_version_shim (entrypoint_file : List Char) : List Char :=
  "\nwith io.open(".data ++ pyRepr entrypoint_file ++
    ", encoding='utf8') as fp:\n  version = re.search(r\"__version__\\s*=\\s*'(.*)'\", fp.read()).group(1)\n".data

/-- A `VersionRef` produced by `get_package_version_refs`: file path, span of
capture group 1, and the captured version string. -/
structure VersionRef where
  filename : List Char
  vstart : Nat
  vend : Nat
  value : List Char
deriving DecidableEq, Repr

/-- Filesystem errors `open()` can raise. -/
inductive PyErr where
  | fileNotFound : List Char → PyErr
deriving DecidableEq, Repr

/-- `SetuptoolsRenderer.get_package_version_refs`: if
`os.path.isfile(entry_file)` is false the generator returns without yielding
(`return; yield`), producing an empty sequence; otherwise it reads the file and
yields one `VersionRef` per `re.search` hit (at most one).  The `isfile` guard
precedes the `open`, so no filesystem error escapes; the `Except` result type
records that the operation nonetheless completes normally. -/
def get_package_version_refs (entry_file_isfile : Bool)
    (entry_file_content : List Char) (entry_file : List Char) :
    Except PyErr (List VersionRef) :=
  if !entry_file_isfile then Except.ok []
  else
    Except.ok
      (match searchVersion entry_file_content with
       | some (s, e, v) => [⟨entry_file, s, e, v⟩]
       | none => [])

/-- The description serialization on the `description = …` line of
`_render_setup`:
`description.replace('\n\n', '%%%%').replace('\n', ' ').replace('%%%%', '\n').strip()`.
Note the sentinel `%%%%` is restored to a single newline. -/
def render_description (description : List Char) : List Char :=
  pyStrip (pyReplace "%%%%".data "\n".data
    (pyReplace "\n".data " ".data
      (pyReplace "\n\n".data "%%%%".data description)))

/-- `SetuptoolsRenderer._ENTRTYPOINT_VARS` (source spelling), in insertion
order. -/
def ENTRTYPOINT_VARS : List (List Char × List Char) :=
  [("python-major-version".data, "sys.version[0]".data),
   ("python-major-minor-version".data, "sys.version[:3]".data)]

/-- The placeholder-substitution loop of `_render_entrypoints`: for each
`(varname, expr)` of `_ENTRTYPOINT_VARS`, if `'{{' + varname + '}}'` occurs in
the (already `repr`-ed) item, replace it with `'{' + str(len(args)) + '}'` and
append `expr` to `args`. -/
def applyVars : List (List Char × List Char) → List Char → List (List Char) →
    List Char × List (List Char)
  | [], item, args => (item, args)
  | (varname, expr) :: rest, item, args =>
    let pat := "\x7b\x7b".data ++ varname ++ "\x7d\x7d".data
    if occursIn pat item = true then
      applyVars rest
        (pyReplace pat ('\x7b' :: (natToChars args.length ++ ['\x7d'])) item)
        (args ++ [expr])
    else
      applyVars rest item args

/-- One entry-point item line of `_render_entrypoints`: `item = repr(item)`,
placeholder substitution, optional `.format(…)` suffix when any placeholder was
found, then `'      ' + item.strip() + ','`. -/
def renderEntryItem (item : List Char) : List Char :=
  let r := applyVars ENTRTYPOINT_VARS (pyRepr item) []
  let formatted :=
    if r.2 = [] then r.1
    else r.1 ++ ".format(".data ++ joinSep ", ".data r.2 ++ ")".data
  "      ".data ++ pyStrip formatted ++ [',']

/-- The lines `_render_entrypoints` appends for one entry-point group:
`'    {!r}: ['.format(key)`, one line per item, and `'    ],'`. -/
def entrypointGroupLines (g : List Char × List (List Char)) : List (List Char) :=
  ("    ".data ++ pyRepr g.1 ++ ": [".data) ::
    (g.2.map renderEntryItem ++ ["    ],".data])

/-- Replace the last element of a list of lines. -/
def modifyLast (f : List Char → List Char) : List (List Char) → List (List Char)
  | [] => []
  | [x] => [f x]
  | x :: y :: rest => x :: modifyLast f (y :: rest)

/-- `SetuptoolsRenderer._render_entrypoints`: `'{}'` for an empty mapping;
otherwise the opening brace line, the group lines, the trailing comma of the
last line removed (`lines[-1] = lines[-1][:-1]`), and the closing `'  }'`,
joined with newlines. -/
def render_entrypoints (entrypoints : List (List Char × List (List Char))) :
    List Char :=
  if entrypoints = [] then "\x7b\x7d".data
  else
    joinSep ['\n']
      (modifyLast (fun l => l.dropLast)
        ("\x7b".data :: catLists (entrypoints.map entrypointGroupLines))
        ++ ["  \x7d".data])

/-- A flat filesystem model: the set of regular-file paths and the set of
directory paths, each as a list. -/
structure FS where
  files : List (List Char)
  dirs : List (List Char)
deriving DecidableEq, Repr

/-- `os.path.isfile`. -/
def FS.isfile (fs : FS) (p : List Char) : Bool := fs.files.contains p

/-- `os.path.exists`. -/
def FS.pexists (fs : FS) (p : List Char) : Bool :=
  fs.files.contains p || fs.dirs.contains p

/-- `os.remove`. -/
def FS.removeFile (fs : FS) (p : List Char) : FS :=
  ⟨fs.files.filter (fun q => !(q == p)), fs.dirs⟩

/-- `os.rename` on a regular file. -/
def FS.renameFile (fs : FS) (src dst : List Char) : FS :=
  ⟨dst :: fs.files.filter (fun q => !(q == src)), fs.dirs⟩

/-- `shutil.rmtree`: removes the directory and everything under it. -/
def FS.rmtree (fs : FS) (p : List Char) : FS :=
  ⟨fs.files.filter (fun q => !(isPre (p ++ ['/']) q)),
   fs.dirs.filter (fun q => !(q == p) && !(isPre (p ++ ['/']) q))⟩

/-- `BuildResult` from `shore.core.plugins`. -/
inductive BuildResult where
  | SUCCESS
  | FAILURE
deriving DecidableEq, Repr

/-- Outcome of `SetuptoolsBuildTarget.build`: a normal return with the final
filesystem state, or the `RuntimeError` raised for a missing artifact (with the
message and the filesystem state at the raise). -/
inductive BuildOutcome where
  | ok : BuildResult → FS → BuildOutcome
  | fatal : List Char → FS → BuildOutcome
deriving DecidableEq, Repr

/-- `SetuptoolsBuildTarget._FORMATS_MAP`. -/
def FORMATS_MAP : List (List Char × List Char) :=
  [("zip".data, ".zip".data),
   ("gztar".data, ".tar.gz".data),
   ("bztar".data, ".tar.bz2".data),
   ("ztar".data, ".tar.Z".data),
   ("tar".data, ".tar".data)]

/-- `SetuptoolsBuildTarget.get_build_artifacts`:
`'{}-{}{}'.format(package.name, package.version, _FORMATS_MAP[f])` for each
requested format (all callers use formats from the map's domain, so the
`KeyError` path of an unknown key is inert here). -/
def get_build_artifacts (name version : List Char) (formats : List (List Char)) :
    List (List Char) :=
  formats.map (fun f => name ++ "-".data ++ version ++ (FORMATS_MAP.lookup f).getD [])

/-- The artifact-relocation loop of `SetuptoolsBuildTarget.build`: for each
artifact filename, check `os.path.isfile(src)` (raising `RuntimeError` if it is
missing), then if `src != dst` remove a pre-existing `dst` and rename `src` to
`dst`. -/
def moveArtifacts (dist_directory build_directory : List Char) :
    List (List Char) → FS → Except (List Char × FS) FS
  | [], fs => Except.ok fs
  | filename :: rest, fs =>
    let src := pyJoin dist_directory filename
    let dst := pyJoin build_directory filename
    if fs.isfile src = false then
      Except.error (src ++ " not produced during build".data, fs)
    else
      moveArtifacts dist_directory build_directory rest
        (if src ≠ dst then
          (if fs.isfile dst = true then fs.removeFile dst else fs).renameFile src dst
         else fs)

/-- `SetuptoolsBuildTarget.build`: records whether `<package>/dist` existed
before the subprocess, invokes `python setup.py sdist --formats gztar` (the
constructor fixes `self.formats = ['gztar']`; the subprocess's exit code `res`
and the filesystem state `fs1` it leaves behind are inputs), returns `FAILURE`
on a nonzero exit, otherwise relocates each artifact (raising on a missing
one), removes the freshly created `dist` directory, and returns `SUCCESS`. -/
def build (package_directory name version build_directory : List Char)
    (fs0 : FS) (res : Int) (fs1 : FS) : BuildOutcome :=
  let dist_directory := pyJoin package_directory "dist".data
  let dist_exists := fs0.pexists dist_directory
  if res ≠ 0 then BuildOutcome.ok BuildResult.FAILURE fs1
  else
    match moveArtifacts dist_directory build_directory
        (get_build_artifacts name version ["gztar".data]) fs1 with
    | Except.error (msg, fs) => BuildOutcome.fatal msg fs
    | Except.ok fs2 =>
      BuildOutcome.ok BuildResult.SUCCESS
        (if dist_exists = true then fs2 else fs2.rmtree dist_directory)

/-- First occurrence of `sub` in `s` at or after position `start`: declarative
least-index predicate used to characterize `split_section`. -/
def isFirstOccurrenceFrom (sub s : List Char) (start k : Nat) : Prop :=
  start ≤ k ∧ k ≤ s.length ∧ isPre sub (s.drop k) = true ∧
    ∀ j < k, start ≤ j → isPre sub (s.drop j) = false

instance (sub s : List Char) (start k : Nat) :
    Decidable (isFirstOccurrenceFrom sub s start k) := by
  unfold isFirstOccurrenceFrom; infer_instance

/-- Modelled from the claim's words (for comparison with `split_section`): the
end marker is searched for only after the END of the begin marker, and the
suffix skips one character only when it is a line terminator. -/
def split_section_claimed (data begin_marker end_marker : List Char) :
    List Char × List Char × List Char :=
  match strFind data begin_marker 0 with
  | none => (data, [], [])
  | some start =>
    match strFind data end_marker (start + begin_marker.length) with
    | none => (data, [], [])
    | some e =>
      (data.take start,
       (data.take e).drop (start + begin_marker.length),
       let rest := data.drop (e + end_marker.length)
       if rest.head? = some '\n' then rest.drop 1 else rest)

theorem split_section_found {data bm em : List Char} {st en : Nat}
    (h1 : strFind data bm 0 = some st) (h2 : strFind data em st = some en) :
    split_section data bm em =
      (data.take st, (data.take en).drop (st + bm.length),
       data.drop (en + em.length + 1)) := by
  simp [split_section, h1, h2]

theorem pyReplace_clean_mid {old : List Char} {h0 : Char} {tl : List Char}
    (hold : old = h0 :: tl) (new : List Char) {a : List Char} (s : List Char)
    (hna : h0 ∉ a) (hs : occursIn old s = false) :
    pyReplace old new (a ++ (old ++ s)) = a ++ (new ++ s) := by
  subst hold
  rw [pyReplace_app_no_head new _ hna, pyReplace_match, pyReplace_eq_self new hs]

theorem occursIn_nn_false {b c : List Char} (hb : '\n' ∉ b) (hc : '\n' ∉ c) :
    occursIn "\n\n".data (b ++ '\n' :: c) = false := by
  have h1 : isPre ['\n'] c = false := by
    cases hP : isPre ['\n'] c
    · rfl
    · exact absurd (isPre_head_mem hP) hc
  rw [show ("\n\n".data : List Char) = '\n' :: ['\n'] from rfl]
  rw [occursIn_app_no_head _ hb]
  have h2 : occursIn ('\n' :: ['\n']) c = false := occursIn_false_head_notMem hc
  simp [occursIn, isPre, h1, h2]

theorem takeWhile_all {p : Char → Bool} : ∀ {l : List Char},
    (∀ c ∈ l, p c = true) → l.takeWhile p = l := by
  intro l
  induction l with
  | nil => intro _; rfl
  | cons c rest ih =>
    intro h
    rw [List.takeWhile_cons_of_pos (h c (List.mem_cons_self c rest)),
      ih (fun x hx => h x (List.mem_cons_of_mem c hx))]

theorem takeWhile_all_app {p : Char → Bool} {v : List Char}
    (h : ∀ c ∈ v, p c = true) {d : Char} (hd : p d = false) (rest : List Char) :
    (v ++ d :: rest).takeWhile p = v := by
  induction v with
  | nil =>
    rw [List.nil_append]
    exact List.takeWhile_cons_of_neg (by simp [hd])
  | cons c vs ih =>
    rw [List.cons_append, List.takeWhile_cons_of_pos (h c (List.mem_cons_self c vs)),
      ih (fun x hx => h x (List.mem_cons_of_mem c hx))]

theorem searchAux_zero {α : Type} (f : Nat → Option α) (n : Nat) {r : α}
    (h : f 0 = some r) : searchAux f 0 (n + 1) = some r := by
  simp [searchAux, h]

/-- C5: `split_section` computes, in terms of declarative least-occurrence
predicates, the split whose middle starts after the begin marker and ends at
the first occurrence of the end marker at or after the START index of the begin
marker, whose suffix skips exactly one character (whatever it is) after the end
marker, and which degenerates to `(data, '', '')` when either search fails. -/
theorem split_section_characterized (data bm em : List Char) :
    ((∀ i ≤ data.length, isPre bm (data.drop i) = false) →
       split_section data bm em = (data, [], []))
    ∧ (∀ st, isFirstOccurrenceFrom bm data 0 st →
        (∀ j, st ≤ j → j ≤ data.length → isPre em (data.drop j) = false) →
        split_section data bm em = (data, [], []))
    ∧ (∀ st en, isFirstOccurrenceFrom bm data 0 st →
        isFirstOccurrenceFrom em data st en →
        split_section data bm em =
          (data.take st, (data.take en).drop (st + bm.length),
           data.drop (en + em.length + 1))) := by
  refine ⟨?_, ?_, ?_⟩
  · intro h
    have hf : strFind data bm 0 = none :=
      strFind_eq_none (fun j _ hj2 => h j hj2)
    simp [split_section, hf]
  · rintro st ⟨h0, hlen, hocc, hmin⟩ hnone
    have hf1 : strFind data bm 0 = some st :=
      strFind_eq_some h0 hlen hocc (fun j hj1 hj2 => hmin j hj2 hj1)
    have hf2 : strFind data em st = none :=
      strFind_eq_none (fun j hj1 hj2 => hnone j hj1 hj2)
    simp [split_section, hf1, hf2]
  · rintro st en ⟨h0, hlen, hocc, hmin⟩ ⟨h0', hlen', hocc', hmin'⟩
    have hf1 : strFind data bm 0 = some st :=
      strFind_eq_some h0 hlen hocc (fun j hj1 hj2 => hmin j hj2 hj1)
    have hf2 : strFind data em st = some en :=
      strFind_eq_some h0' hlen' hocc' (fun j hj1 hj2 => hmin' j hj2 hj1)
    exact split_section_found hf1 hf2

/-- Witness for C5: on `"a<m>xyz"` with markers `"<"`, `">"`, the end marker at
index 3 is the first occurrence from the begin marker's start index 1, and the
suffix `"yz"` skips exactly one character (the `'x'`, not a line terminator). -/
theorem split_section_characterized_witness :
    isFirstOccurrenceFrom "<".data "a<m>xyz".data 0 1
    ∧ isFirstOccurrenceFrom ">".data "a<m>xyz".data 1 3
    ∧ split_section "a<m>xyz".data "<".data ">".data =
        ("a".data, "m".data, "yz".data) := by
  refine ⟨by decide, by decide, ?_⟩
  have h := (split_section_characterized "a<m>xyz".data "<".data ">".data).2.2
    1 3 (by decide) (by decide)
  rw [h]
  decide

/-- Counterexample for C5: with `data = "ab"`, `begin = "ab"`, `end = "a"`, the
end marker occurs at the begin marker's start index but nowhere after its end,
so the code returns `("", "", "")` while the claim's reading (search the end
marker only after the end of the begin marker) gives `("ab", "", "")`. -/
theorem split_section_claim_cex :
    split_section "ab".data "ab".data "a".data ≠
      split_section_claimed "ab".data "ab".data "a".data := by
  decide

/-- C1: evaluating `rewrite_section` with a failing caller on empty prior text:
the begin marker is written but, because the generator has no try/finally, the
end marker never is — the output's markers are unbalanced. -/
theorem rewrite_section_unbalanced_on_caller_error :
    occursIn BEGIN_SECTION
        (rewrite_section [] BEGIN_SECTION END_SECTION "include *.py\n".data true) = true
    ∧ occursIn END_SECTION
        (rewrite_section [] BEGIN_SECTION END_SECTION "include *.py\n".data true) = false := by
  decide

/-- C8 (amended): when `os.path.isfile(entry_file)` is false, the version scan
returns normally with no refs — it does not propagate a file-not-found error. -/
theorem version_refs_silent_on_missing_file (content entry_file : List Char) :
    get_package_version_refs false content entry_file = Except.ok [] := rfl

/-- Counterexample for C8: at a concrete missing entry file the operation
yields the normal empty result, not a `fileNotFound` error. -/
theorem version_refs_no_error_cex :
    get_package_version_refs false [] "src/pkg/__init__.py".data = Except.ok []
    ∧ get_package_version_refs false [] "src/pkg/__init__.py".data ≠
        Except.error (PyErr.fileNotFound "src/pkg/__init__.py".data) := by
  refine ⟨rfl, ?_⟩
  intro h
  simp [get_package_version_refs] at h

/-- Counterexample for C3: the spec's own example input renders with a single
newline at the paragraph break, not the claimed double newline. -/
theorem render_description_claim_cex :
    render_description "Line one.\n\nLine two.\nLine three.".data ≠
      "Line one.\n\nLine two. Line three.".data := by
  decide

/-- C3 (amended): a double newline becomes a single newline (the sentinel is
restored to `'\n'`, not `'\n\n'`), any other single newline becomes a space,
and the result is stripped. -/
theorem render_description_amended (a b c : List Char)
    (ha : ∀ ch ∈ a, ch ≠ '\n' ∧ ch ≠ '%')
    (hb : ∀ ch ∈ b, ch ≠ '\n' ∧ ch ≠ '%')
    (hc : ∀ ch ∈ c, ch ≠ '\n' ∧ ch ≠ '%') :
    render_description (a ++ "\n\n".data ++ b ++ "\n".data ++ c) =
      pyStrip (a ++ "\n".data ++ b ++ " ".data ++ c) := by
  have hna : '\n' ∉ a := fun hm => (ha _ hm).1 rfl
  have hnb : '\n' ∉ b := fun hm => (hb _ hm).1 rfl
  have hnc : '\n' ∉ c := fun hm => (hc _ hm).1 rfl
  have hpa : '%' ∉ a := fun hm => (ha _ hm).2 rfl
  have hpb : '%' ∉ b := fun hm => (hb _ hm).2 rfl
  have hpc : '%' ∉ c := fun hm => (hc _ hm).2 rfl
  have hshape : a ++ "\n\n".data ++ b ++ "\n".data ++ c =
      a ++ ("\n\n".data ++ (b ++ '\n' :: c)) := by
    simp [List.append_assoc]
  have e1 : pyReplace "\n\n".data "%%%%".data (a ++ ("\n\n".data ++ (b ++ '\n' :: c))) =
      a ++ ("%%%%".data ++ (b ++ '\n' :: c)) :=
    pyReplace_clean_mid rfl _ _ hna (occursIn_nn_false hnb hnc)
  have hshape2 : a ++ ("%%%%".data ++ (b ++ '\n' :: c)) =
      (a ++ ("%%%%".data ++ b)) ++ ("\n".data ++ c) := by
    simp [List.append_assoc]
  have hna2 : '\n' ∉ a ++ ("%%%%".data ++ b) := by
    intro hm
    rcases List.mem_append.1 hm with hm | hm
    · exact hna hm
    rcases List.mem_append.1 hm with hm | hm
    · simp at hm
    · exact hnb hm
  have e2 : pyReplace "\n".data " ".data ((a ++ ("%%%%".data ++ b)) ++ ("\n".data ++ c)) =
      (a ++ ("%%%%".data ++ b)) ++ (" ".data ++ c) :=
    pyReplace_clean_mid rfl _ _ hna2 (occursIn_false_head_notMem hnc)
  have hshape3 : (a ++ ("%%%%".data ++ b)) ++ (" ".data ++ c) =
      a ++ ("%%%%".data ++ (b ++ ' ' :: c)) := by
    simp [List.append_assoc]
  have hpbc : '%' ∉ b ++ ' ' :: c := by
    intro hm
    rcases List.mem_append.1 hm with hm | hm
    · exact hpb hm
    rcases List.mem_cons.1 hm with hm | hm
    · simp at hm
    · exact hpc hm
  have e3 : pyReplace "%%%%".data "\n".data (a ++ ("%%%%".data ++ (b ++ ' ' :: c))) =
      a ++ ("\n".data ++ (b ++ ' ' :: c)) :=
    pyReplace_clean_mid rfl _ _ hpa (occursIn_false_head_notMem hpbc)
  unfold render_description
  rw [hshape, e1, hshape2, e2, hshape3, e3]
  have : a ++ ("\n".data ++ (b ++ ' ' :: c)) = a ++ "\n".data ++ b ++ " ".data ++ c := by
    simp [List.append_assoc]
  rw [this]

/-- Witness for C3: the spec's example, corrected — it renders to
`"Line one.\nLine two. Line three."`. -/
theorem render_description_amended_witness :
    (∀ ch ∈ "Line one.".data, ch ≠ '\n' ∧ ch ≠ '%')
    ∧ (∀ ch ∈ "Line two.".data, ch ≠ '\n' ∧ ch ≠ '%')
    ∧ (∀ ch ∈ "Line three.".data, ch ≠ '\n' ∧ ch ≠ '%')
    ∧ render_description
        ("Line one.".data ++ "\n\n".data ++ "Line two.".data ++ "\n".data ++ "Line three.".data)
      = "Line one.\nLine two. Line three.".data := by
  refine ⟨by decide, by decide, by decide, ?_⟩
  rw [render_description_amended "Line one.".data "Line two.".data "Line three.".data
    (by decide) (by decide) (by decide)]
  decide

/-- C10: the sentinel is the literal `%%%%`, so the transformation identifies a
description containing `%%%%` with one containing a paragraph break at the same
spot: both map to the same output, with a newline where the `%%%%` was. -/
theorem render_description_sentinel_collision (a b : List Char)
    (ha : ∀ ch ∈ a, ch ≠ '\n' ∧ ch ≠ '%')
    (hb : ∀ ch ∈ b, ch ≠ '\n' ∧ ch ≠ '%') :
    render_description (a ++ "%%%%".data ++ b) =
        render_description (a ++ "\n\n".data ++ b)
    ∧ a ++ "%%%%".data ++ b ≠ a ++ "\n\n".data ++ b := by
  have hna : '\n' ∉ a := fun hm => (ha _ hm).1 rfl
  have hnb : '\n' ∉ b := fun hm => (hb _ hm).1 rfl
  have hpa : '%' ∉ a := fun hm => (ha _ hm).2 rfl
  have hpb : '%' ∉ b := fun hm => (hb _ hm).2 rfl
  constructor
  · have hnall : '\n' ∉ a ++ ("%%%%".data ++ b) := by
      intro hm
      rcases List.mem_append.1 hm with hm | hm
      · exact hna hm
      rcases List.mem_append.1 hm with hm | hm
      · simp at hm
      · exact hnb hm
    have hL1 : pyReplace "\n\n".data "%%%%".data (a ++ ("%%%%".data ++ b)) =
        a ++ ("%%%%".data ++ b) :=
      pyReplace_eq_self _ (occursIn_false_head_notMem hnall)
    have hL2 : pyReplace "\n".data " ".data (a ++ ("%%%%".data ++ b)) =
        a ++ ("%%%%".data ++ b) :=
      pyReplace_eq_self _ (occursIn_false_head_notMem hnall)
    have hL3 : pyReplace "%%%%".data "\n".data (a ++ ("%%%%".data ++ b)) =
        a ++ ("\n".data ++ b) :=
      pyReplace_clean_mid rfl _ _ hpa (occursIn_false_head_notMem hpb)
    have hR1 : pyReplace "\n\n".data "%%%%".data (a ++ ("\n\n".data ++ b)) =
        a ++ ("%%%%".data ++ b) := by
      refine pyReplace_clean_mid rfl _ _ hna ?_
      exact occursIn_false_head_notMem hnb
    have hgoal : a ++ "%%%%".data ++ b = a ++ ("%%%%".data ++ b) := by
      simp [List.append_assoc]
    have hgoal2 : a ++ "\n\n".data ++ b = a ++ ("\n\n".data ++ b) := by
      simp [List.append_assoc]
    unfold render_description
    rw [hgoal, hgoal2, hL1, hL2, hL3, hR1, hL2, hL3]
  · intro h
    have hlen := congrArg List.length h
    simp [List.length_append] at hlen
    omega

theorem takeWhile_sp_eq (X : List Char) :
    (' ' :: '=' :: X).takeWhile isWS = [' '] := by
  rw [List.takeWhile_cons_of_pos (by decide), List.takeWhile_cons_of_neg (by decide)]

theorem takeWhile_sp_q (X : List Char) :
    (' ' :: '\'' :: X).takeWhile isWS = [' '] := by
  rw [List.takeWhile_cons_of_pos (by decide), List.takeWhile_cons_of_neg (by decide)]

theorem matchVersionTail_assign (v : List Char) (hv0 : v ≠ [])
    (hv : ∀ c ∈ v, c ≠ '\'' ∧ c ≠ '"' ∧ c ≠ '\n') :
    matchVersionTail ("__version__ = '".data ++ (v ++ ['\''])) =
      some (15, 15 + v.length, v) := by
  have hshape : "__version__ = '".data ++ (v ++ ['\'']) =
      VERSION_LIT ++ (' ' :: '=' :: ' ' :: '\'' :: (v ++ ['\''])) := by
    rw [show ("__version__ = '".data : List Char) =
      VERSION_LIT ++ [' ', '=', ' ', '\''] from rfl]
    simp
  rw [hshape]
  have h1 : isPre VERSION_LIT
      (VERSION_LIT ++ (' ' :: '=' :: ' ' :: '\'' :: (v ++ ['\'']))) = true :=
    isPre_self_app _ _
  have hval : (v ++ ['\'']).takeWhile (fun c => !(c == '\'' || c == '"')) = v := by
    have := takeWhile_all_app (p := fun c => !(c == '\'' || c == '"'))
      (v := v) (fun c hc => by
        rcases hv c hc with ⟨hq, hdq, _⟩
        simp [hq, hdq]) (d := '\'') (by decide) []
    simpa using this
  have hq2 : (v ++ ['\'']).drop v.length = ['\''] := drop_len_app v ['\'']
  simp only [matchVersionTail, h1, if_true, drop_len_app, takeWhile_sp_eq,
    List.length_cons, List.length_nil, List.drop_succ_cons, List.drop_zero,
    takeWhile_sp_q, hval, hq2]
  rw [if_pos (Or.inl trivial), if_pos ⟨List.length_pos.2 hv0, Or.inl trivial⟩,
    show VERSION_LIT.length = 11 from rfl]

theorem matchEmittedTail_assign (v : List Char)
    (hv : ∀ c ∈ v, c ≠ '\'' ∧ c ≠ '"' ∧ c ≠ '\n') :
    matchEmittedTail ("__version__ = '".data ++ (v ++ ['\''])) = some v := by
  have hshape : "__version__ = '".data ++ (v ++ ['\'']) =
      VERSION_LIT ++ (' ' :: '=' :: ' ' :: '\'' :: (v ++ ['\''])) := by
    rw [show ("__version__ = '".data : List Char) =
      VERSION_LIT ++ [' ', '=', ' ', '\''] from rfl]
    simp
  rw [hshape]
  have h1 : isPre VERSION_LIT
      (VERSION_LIT ++ (' ' :: '=' :: ' ' :: '\'' :: (v ++ ['\'']))) = true :=
    isPre_self_app _ _
  have hline : (v ++ ['\'']).takeWhile (fun c => !(c == '\n')) = v ++ ['\''] := by
    refine takeWhile_all (fun c hc => ?_)
    rcases List.mem_append.1 hc with hc | hc
    · simp [(hv c hc).2.2]
    · simp at hc
      simp [hc]
  have hlq : lastQuoteIdx (v ++ ['\'']) = some v.length := by
    have hrev : (v ++ ['\'']).reverse = '\'' :: v.reverse := by simp
    simp [lastQuoteIdx, hrev, firstQuoteIdx, List.length_append]
  have htake : (v ++ ['\'']).take v.length = v := take_len_app v _
  simp only [matchEmittedTail, h1, if_true, drop_len_app, takeWhile_sp_eq,
    List.length_cons, List.length_nil, List.drop_succ_cons, List.drop_zero,
    takeWhile_sp_q, hline, hlq, htake]

theorem searchVersion_assign (v : List Char) (hv0 : v ≠ [])
    (hv : ∀ c ∈ v, c ≠ '\'' ∧ c ≠ '"' ∧ c ≠ '\n') :
    searchVersion ("__version__ = '".data ++ (v ++ ['\''])) =
      some (15, 15 + v.length, v) := by
  unfold searchVersion
  apply searchAux_zero
  simp only [List.drop_zero, matchVersionTail_assign v hv0 hv, Option.map_some',
    Nat.zero_add]

theorem searchEmitted_assign (v : List Char)
    (hv : ∀ c ∈ v, c ≠ '\'' ∧ c ≠ '"' ∧ c ≠ '\n') :
    searchEmitted ("__version__ = '".data ++ (v ++ ['\''])) = some v := by
  unfold searchEmitted
  apply searchAux_zero
  rw [List.drop_zero, matchEmittedTail_assign v hv]

/-- C2 (amended): the pattern emitted into the generated script is
`__version__\s*=\s*'(.*)'`, which is a different pattern text from the
scanner's `_VERSION_REGEX`; on single-quoted assignments whose value contains
no quote character and no newline, the statically discovered value and the
value the generated script extracts at run time coincide (both equal the
assigned value). -/
theorem version_extraction_amended :
    (∀ entry_file,
        occursIn EMITTED_VERSION_PATTERN (render_version_shim entry_file) = true)
    ∧ EMITTED_VERSION_PATTERN ≠ VERSION_REGEX
    ∧ (∀ v, v ≠ [] → (∀ c ∈ v, c ≠ '\'' ∧ c ≠ '"' ∧ c ≠ '\n') →
        (searchVersion ("__version__ = '".data ++ (v ++ ['\'']))).map
            (fun r => r.2.2) = some v
        ∧ searchEmitted ("__version__ = '".data ++ (v ++ ['\''])) = some v) := by
  refine ⟨?_, by decide, ?_⟩
  · intro entry_file
    unfold render_version_shim
    exact occursIn_app_right _ (by decide)
  · intro v hv0 hv
    refine ⟨?_, searchEmitted_assign v hv⟩
    rw [searchVersion_assign v hv0 hv]
    rfl

/-- Witness for C2's amended claim at the value `"1.0"`. -/
theorem version_extraction_amended_witness :
    ("1.0".data ≠ [] ∧ ∀ c ∈ "1.0".data, c ≠ '\'' ∧ c ≠ '"' ∧ c ≠ '\n')
    ∧ (searchVersion ("__version__ = '".data ++ ("1.0".data ++ ['\'']))).map
        (fun r => r.2.2) = some "1.0".data
    ∧ searchEmitted ("__version__ = '".data ++ ("1.0".data ++ ['\''])) =
        some "1.0".data := by
  refine ⟨⟨by decide, by decide⟩, ?_, ?_⟩
  · exact (version_extraction_amended.2.2 "1.0".data (by decide) (by decide)).1
  · exact (version_extraction_amended.2.2 "1.0".data (by decide) (by decide)).2

/-- Counterexample for C2: the two pattern texts differ, and on the
double-quoted entry content `__version__ = "1.0"` the static scanner discovers
the value `"1.0"` while the pattern the generated script uses finds no match at
all. -/
theorem version_pattern_mismatch_cex :
    EMITTED_VERSION_PATTERN ≠ VERSION_REGEX
    ∧ (searchVersion "__version__ = \"1.0\"".data).map (fun r => r.2.2) =
        some "1.0".data
    ∧ searchEmitted "__version__ = \"1.0\"".data = none := by
  decide

theorem split_section_shape (pre body suf bm em : List Char)
    (H1 : ∀ i < pre.length, isPre bm ((pre ++ bm).drop i) = false)
    (H2 : ∀ k < (bm ++ '\n' :: body).length,
        isPre em (((bm ++ '\n' :: body) ++ em).drop k) = false) :
    split_section (pre ++ (bm ++ '\n' :: (body ++ (em ++ '\n' :: suf)))) bm em
      = (pre, '\n' :: body, suf) := by
  set out := pre ++ (bm ++ '\n' :: (body ++ (em ++ '\n' :: suf))) with hout
  set X := bm ++ '\n' :: body with hX
  have hA : out = (pre ++ bm) ++ ('\n' :: (body ++ (em ++ '\n' :: suf))) := by
    simp [hout, List.append_assoc]
  have hB : out = (pre ++ X) ++ (em ++ '\n' :: suf) := by
    simp [hout, hX, List.append_assoc]
  have hC : out = (pre ++ (X ++ em)) ++ ('\n' :: suf) := by
    simp [hout, hX, List.append_assoc]
  have hfind1 : strFind out bm 0 = some pre.length := by
    refine strFind_eq_some (Nat.zero_le _) ?_ ?_ ?_
    · rw [hout]
      simp [List.length_append]
    · rw [hout, drop_len_app]
      exact isPre_self_app _ _
    · intro j _ hj
      rw [hA, dropAppend, Nat.sub_eq_zero_of_le (by simp [List.length_append]; omega),
        List.drop_zero, isPre_app_long _ (by simp [List.length_drop, List.length_append]; omega)]
      exact H1 j hj
  have hfind2 : strFind out em pre.length = some (pre.length + X.length) := by
    refine strFind_eq_some (by omega) ?_ ?_ ?_
    · rw [hB]
      simp [List.length_append]
    · rw [hB, drop_len_app' _ (by simp [List.length_append])]
      exact isPre_self_app _ _
    · intro j hj1 hj2
      rw [hC, dropAppend, Nat.sub_eq_zero_of_le (by simp [List.length_append]; omega),
        List.drop_zero, dropAppend, List.drop_eq_nil_of_le (by omega), List.nil_append,
        isPre_app_long _ (by simp [List.length_drop, List.length_append]; omega)]
      exact H2 (j - pre.length) (by omega)
  rw [split_section_found hfind1 hfind2]
  have htake1 : out.take pre.length = pre := by
    rw [hout]
    exact take_len_app _ _
  have htake2 : out.take (pre.length + X.length) = pre ++ X := by
    rw [hB]
    exact take_len_app' _ (by simp [List.length_append])
  have hmid : (pre ++ X).drop (pre.length + bm.length) = '\n' :: body := by
    rw [show pre ++ X = (pre ++ bm) ++ '\n' :: body by simp [hX, List.append_assoc]]
    exact drop_len_app' _ (by simp [List.length_append])
  have hsuf : out.drop (pre.length + X.length + em.length + 1) = suf := by
    rw [show out = ((pre ++ (X ++ em)) ++ ['\n']) ++ suf by
      simp [hout, hX, List.append_assoc]]
    refine drop_len_app' _ ?_
    simp [List.length_append]
    omega
  rw [htake1, htake2, hmid, hsuf]

/-- C4 (amended): provided the existing prefix does not contain (or run into)
the begin marker and the section body built from the rules does not contain the
end marker, re-rendering the renderer's own output is byte-identical, and the
hand-written prefix and suffix survive re-rendering unchanged. -/
theorem render_manifest_idempotent (current : List Char) (manifest : List (List Char))
    (H1 : ∀ i < (split_section current BEGIN_SECTION END_SECTION).1.length,
        isPre BEGIN_SECTION
          (((split_section current BEGIN_SECTION END_SECTION).1 ++ BEGIN_SECTION).drop i)
          = false)
    (H2 : ∀ k < (BEGIN_SECTION ++ '\n' :: manifestBody manifest).length,
        isPre END_SECTION
          (((BEGIN_SECTION ++ '\n' :: manifestBody manifest) ++ END_SECTION).drop k)
          = false) :
    render_manifest (render_manifest current manifest) manifest
        = render_manifest current manifest
    ∧ (split_section (render_manifest current manifest) BEGIN_SECTION END_SECTION).1
        = (split_section current BEGIN_SECTION END_SECTION).1
    ∧ (split_section (render_manifest current manifest) BEGIN_SECTION END_SECTION).2.2
        = (split_section current BEGIN_SECTION END_SECTION).2.2 := by
  have hout : render_manifest current manifest =
      (split_section current BEGIN_SECTION END_SECTION).1 ++
        (BEGIN_SECTION ++ '\n' :: (manifestBody manifest ++
          (END_SECTION ++ '\n' :: (split_section current BEGIN_SECTION END_SECTION).2.2))) := by
    simp [render_manifest, rewrite_section, List.append_assoc]
  have hsplit : split_section (render_manifest current manifest) BEGIN_SECTION END_SECTION
      = ((split_section current BEGIN_SECTION END_SECTION).1,
         '\n' :: manifestBody manifest,
         (split_section current BEGIN_SECTION END_SECTION).2.2) := by
    rw [hout]
    exact split_section_shape _ _ _ _ _ H1 H2
  refine ⟨?_, by rw [hsplit], by rw [hsplit]⟩
  have h2 : render_manifest (render_manifest current manifest) manifest =
      (split_section (render_manifest current manifest) BEGIN_SECTION END_SECTION).1
        ++ BEGIN_SECTION ++ ['\n'] ++ manifestBody manifest ++ END_SECTION ++ ['\n'] ++
        (split_section (render_manifest current manifest) BEGIN_SECTION END_SECTION).2.2 := by
    simp [render_manifest, rewrite_section, List.append_assoc]
  rw [h2, hsplit, hout]
  simp [List.append_assoc]

/-- Witness for C4: a manifest text with hand-written content before and after
the managed markers, and an ordinary rule list; both hypotheses hold and
re-rendering is byte-identical. -/
theorem render_manifest_idempotent_witness :
    (∀ i < (split_section
        "include A\n# Auto-generated with shore. Do not edit. \x7b\nold\n# \x7d\ntail\n".data
        BEGIN_SECTION END_SECTION).1.length,
      isPre BEGIN_SECTION
        (((split_section
            "include A\n# Auto-generated with shore. Do not edit. \x7b\nold\n# \x7d\ntail\n".data
            BEGIN_SECTION END_SECTION).1 ++ BEGIN_SECTION).drop i) = false)
    ∧ (∀ k < (BEGIN_SECTION ++ '\n' :: manifestBody ["include *.py".data]).length,
      isPre END_SECTION
        (((BEGIN_SECTION ++ '\n' :: manifestBody ["include *.py".data]) ++
          END_SECTION).drop k) = false)
    ∧ render_manifest
        (render_manifest
          "include A\n# Auto-generated with shore. Do not edit. \x7b\nold\n# \x7d\ntail\n".data
          ["include *.py".data])
        ["include *.py".data]
      = render_manifest
          "include A\n# Auto-generated with shore. Do not edit. \x7b\nold\n# \x7d\ntail\n".data
          ["include *.py".data] := by
  refine ⟨by decide, by decide, ?_⟩
  exact (render_manifest_idempotent
    "include A\n# Auto-generated with shore. Do not edit. \x7b\nold\n# \x7d\ntail\n".data
    ["include *.py".data] (by decide) (by decide)).1

/-- Counterexample for C4: with the rule list `["# }"]` — a single rule that
contains the end marker — re-rendering the renderer's own output is not
byte-identical: the split finds the end marker inside the managed body and a
second copy of the marker line is appended. -/
theorem render_manifest_not_idempotent_cex :
    render_manifest (render_manifest [] ["# \x7d".data]) ["# \x7d".data] ≠
      render_manifest [] ["# \x7d".data] := by
  decide

theorem moveArtifacts_state_dirs (dist bd : List Char) :
    ∀ (l : List (List Char)) (fs : FS),
      (∀ fs', moveArtifacts dist bd l fs = Except.ok fs' → fs'.dirs = fs.dirs)
      ∧ (∀ m fs', moveArtifacts dist bd l fs = Except.error (m, fs') →
          fs'.dirs = fs.dirs) := by
  intro l
  induction l with
  | nil =>
    intro fs
    constructor
    · intro fs' h
      simp only [moveArtifacts, Except.ok.injEq] at h
      rw [← h]
    · intro m fs' h
      simp [moveArtifacts] at h
  | cons f rest ih =>
    intro fs
    by_cases hf : fs.isfile (pyJoin dist f) = false
    · constructor
      · intro fs' h
        simp [moveArtifacts, hf] at h
      · intro m fs' h
        simp only [moveArtifacts, hf, if_pos, Except.error.injEq, Prod.mk.injEq] at h
        rw [← h.2]
    · have hd2 : ((if pyJoin dist f ≠ pyJoin bd f then
          (if fs.isfile (pyJoin bd f) = true then
            fs.removeFile (pyJoin bd f) else fs).renameFile
            (pyJoin dist f) (pyJoin bd f)
         else fs)).dirs = fs.dirs := by
        by_cases h1 : pyJoin dist f ≠ pyJoin bd f
        · rw [if_pos h1]
          show ((if fs.isfile (pyJoin bd f) = true then
            fs.removeFile (pyJoin bd f) else fs)).dirs = fs.dirs
          by_cases h2 : fs.isfile (pyJoin bd f) = true
          · rw [if_pos h2]
            rfl
          · rw [if_neg h2]
        · rw [if_neg h1]
      constructor
      · intro fs' h
        simp only [moveArtifacts, hf, if_neg] at h
        rw [(ih _).1 fs' h, hd2]
      · intro m fs' h
        simp only [moveArtifacts, hf, if_neg] at h
        rw [(ih _).2 m fs' h, hd2]

/-- C6: the build returns `FAILURE` exactly when the subprocess exits nonzero;
when the subprocess exits zero but the declared artifact
(`<name>-<version>.tar.gz`) is absent from `<package>/dist`, the build raises
the distinct `RuntimeError` (it neither returns `FAILURE` nor succeeds). -/
theorem build_result_classification (pd n v bd : List Char) (fs0 : FS)
    (res : Int) (fs1 : FS) :
    ((∃ fs, build pd n v bd fs0 res fs1 = BuildOutcome.ok BuildResult.FAILURE fs)
        ↔ res ≠ 0)
    ∧ (res = 0 →
        FS.isfile fs1
          (pyJoin (pyJoin pd "dist".data)
            (n ++ "-".data ++ v ++ ".tar.gz".data)) = false →
        build pd n v bd fs0 res fs1 =
          BuildOutcome.fatal
            (pyJoin (pyJoin pd "dist".data)
              (n ++ "-".data ++ v ++ ".tar.gz".data)
              ++ " not produced during build".data) fs1) := by
  by_cases hres : res ≠ 0
  · have hb : build pd n v bd fs0 res fs1 =
        BuildOutcome.ok BuildResult.FAILURE fs1 := by
      simp [build, hres]
    exact ⟨⟨fun _ => hres, fun _ => ⟨fs1, hb⟩⟩, fun h0 => absurd h0 hres⟩
  · push_neg at hres
    constructor
    · constructor
      · rintro ⟨fs, hfs⟩
        exfalso
        simp only [build, hres] at hfs
        simp only [ne_eq, not_true_eq_false, if_false, reduceIte] at hfs
        rcases hmv : moveArtifacts (pyJoin pd "dist".data) bd
            (get_build_artifacts n v ["gztar".data]) fs1 with e | f2
        · rw [hmv] at hfs
          simp at hfs
        · rw [hmv] at hfs
          simp at hfs
      · intro h
        exact absurd hres h
    · intro _ hmiss
      have hart : get_build_artifacts n v ["gztar".data] =
          [n ++ "-".data ++ v ++ ".tar.gz".data] := rfl
      simp only [build, hres]
      simp only [ne_eq, not_true_eq_false, if_false, reduceIte]
      rw [hart]
      simp only [List.append_assoc, List.cons_append, List.singleton_append,
        List.nil_append] at hmiss
      simp [moveArtifacts, hmiss]

/-- Witness for C6's missing-artifact branch: exit code 0 with an empty
filesystem yields the fatal outcome. -/
theorem build_result_classification_witness :
    (0 : Int) = 0
    ∧ FS.isfile ⟨[], []⟩
        (pyJoin (pyJoin "pkg".data "dist".data)
          ("demo".data ++ "-".data ++ "1.0".data ++ ".tar.gz".data)) = false
    ∧ build "pkg".data "demo".data "1.0".data "out".data ⟨[], []⟩ 0 ⟨[], []⟩ =
        BuildOutcome.fatal
          (pyJoin (pyJoin "pkg".data "dist".data)
            ("demo".data ++ "-".data ++ "1.0".data ++ ".tar.gz".data)
            ++ " not produced during build".data) ⟨[], []⟩ := by
  refine ⟨rfl, by decide, ?_⟩
  exact (build_result_classification "pkg".data "demo".data "1.0".data "out".data
    ⟨[], []⟩ 0 ⟨[], []⟩).2 rfl (by decide)

/-- C9: on `FAILURE` the filesystem is returned untouched (in particular the
`dist` directory, even if the subprocess created it, remains); on the fatal
missing-artifact path the directory set is unchanged; only on the path that
reaches `SUCCESS` is the `dist` directory removed, and only when it did not
exist before the build. -/
theorem build_nonsuccess_preserves_dist (pd n v bd : List Char) (fs0 : FS)
    (res : Int) (fs1 : FS) :
    (∀ fs, build pd n v bd fs0 res fs1 = BuildOutcome.ok BuildResult.FAILURE fs →
        fs = fs1)
    ∧ (∀ m fs, build pd n v bd fs0 res fs1 = BuildOutcome.fatal m fs →
        fs.dirs = fs1.dirs)
    ∧ (∀ fs, build pd n v bd fs0 res fs1 = BuildOutcome.ok BuildResult.SUCCESS fs →
        (fs0.pexists (pyJoin pd "dist".data) = true → fs.dirs = fs1.dirs)
        ∧ (fs0.pexists (pyJoin pd "dist".data) = false →
            fs.dirs = fs1.dirs.filter (fun q =>
              !(q == pyJoin pd "dist".data) &&
              !(isPre (pyJoin pd "dist".data ++ ['/']) q)))) := by
  by_cases hres : res ≠ 0
  · have hb : build pd n v bd fs0 res fs1 =
        BuildOutcome.ok BuildResult.FAILURE fs1 := by
      simp [build, hres]
    refine ⟨?_, ?_, ?_⟩
    · intro fs h
      rw [hb] at h
      injection h with h1 h2
      exact h2.symm
    · intro m fs h
      rw [hb] at h
      exact absurd h (by simp)
    · intro fs h
      rw [hb] at h
      injection h with h1 h2
      exact absurd h1 (by simp)
  · push_neg at hres
    have hb : build pd n v bd fs0 res fs1 =
        match moveArtifacts (pyJoin pd "dist".data) bd
            (get_build_artifacts n v ["gztar".data]) fs1 with
        | Except.error (msg, fs) => BuildOutcome.fatal msg fs
        | Except.ok fs2 =>
          BuildOutcome.ok BuildResult.SUCCESS
            (if fs0.pexists (pyJoin pd "dist".data) = true then fs2
             else fs2.rmtree (pyJoin pd "dist".data)) := by
      simp [build, hres]
    rcases hmv : moveArtifacts (pyJoin pd "dist".data) bd
        (get_build_artifacts n v ["gztar".data]) fs1 with e | f2
    · rcases e with ⟨m0, f0⟩
      rw [hmv] at hb
      refine ⟨?_, ?_, ?_⟩
      · intro fs h
        rw [hb] at h
        exact absurd h (by simp)
      · intro m fs h
        rw [hb] at h
        injection h with h1 h2
        rw [← h2]
        exact (moveArtifacts_state_dirs _ _ _ _).2 m0 f0 hmv
      · intro fs h
        rw [hb] at h
        exact absurd h (by simp)
    · rw [hmv] at hb
      have hdirs : f2.dirs = fs1.dirs :=
        (moveArtifacts_state_dirs _ _ _ _).1 f2 hmv
      refine ⟨?_, ?_, ?_⟩
      · intro fs h
        rw [hb] at h
        injection h with h1 h2
        exact absurd h1 (by simp)
      · intro m fs h
        rw [hb] at h
        exact absurd h (by simp)
      · intro fs h
        rw [hb] at h
        injection h with h1 h2
        constructor
        · intro hex
          rw [← h2, if_pos hex]
          exact hdirs
        · intro hex
          rw [← h2, if_neg (by rw [hex]; exact Bool.false_ne_true)]
          show (f2.rmtree (pyJoin pd "dist".data)).dirs = _
          show f2.dirs.filter _ = _
          rw [hdirs]

/-- Witness for C9's fatal branch: a concrete failed artifact check leaves the
subprocess-created `pkg/dist` directory in the directory set. -/
theorem build_nonsuccess_preserves_dist_witness :
    build "pkg".data "demo".data "1.0".data "out".data ⟨[], []⟩ 0
        ⟨[], ["pkg/dist".data]⟩ =
      BuildOutcome.fatal "pkg/dist/demo-1.0.tar.gz not produced during build".data
        ⟨[], ["pkg/dist".data]⟩
    ∧ (FS.mk [] ["pkg/dist".data]).dirs = (FS.mk [] ["pkg/dist".data]).dirs := by
  refine ⟨by decide, ?_⟩
  exact (build_nonsuccess_preserves_dist "pkg".data "demo".data "1.0".data
    "out".data ⟨[], []⟩ 0 ⟨[], ["pkg/dist".data]⟩).2.1
    "pkg/dist/demo-1.0.tar.gz not produced during build".data
    ⟨[], ["pkg/dist".data]⟩ (by decide)

theorem occursIn_cons (sub : List Char) (c : Char) (rest : List Char) :
    occursIn sub (c :: rest) = (isPre sub (c :: rest) || occursIn sub rest) := rfl

/-- C7 (amended): for a spec `u ++ "{{python-major-version}}" ++ v` built from
plain, brace-free surroundings, the rendered table replaces the placeholder
with the indexed slot `{0}` and appends the run-time call
`.format(sys.version[0])` — the placeholder's runtime value appears nowhere;
and the inline empty-mapping literal `{}` is produced exactly when the
entry-point mapping itself is empty (a present group with an empty spec list
still renders as a group with an empty list literal). -/
theorem entrypoints_placeholder_deferred (g u v : List Char)
    (hg : ∀ c ∈ g, reprPlain c)
    (hu : ∀ c ∈ u, reprPlain c ∧ c ≠ '\x7b')
    (hv : ∀ c ∈ v, reprPlain c ∧ c ≠ '\x7b') :
    render_entrypoints
        [(g, [u ++ "\x7b\x7bpython-major-version\x7d\x7d".data ++ v])]
      = "\x7b\n    '".data ++ g ++ "': [\n      '".data ++ u ++ "\x7b0\x7d".data
          ++ v ++ "'.format(sys.version[0]),\n    ]\n  \x7d".data
    ∧ render_entrypoints [] = "\x7b\x7d".data := by
  refine ⟨?_, rfl⟩
  set PAT1 : List Char := "\x7b\x7bpython-major-version\x7d\x7d".data with hPAT1
  have hbu : '\x7b' ∉ u := fun hm => (hu _ hm).2 rfl
  have hbv : '\x7b' ∉ v := fun hm => (hv _ hm).2 rfl
  -- the repr of the spec string
  have hrepr : pyRepr (u ++ PAT1 ++ v) = ('\'' :: u) ++ (PAT1 ++ (v ++ ['\''])) := by
    have h := pyRepr_plain (s := u ++ PAT1 ++ v) (fun c hc => by
      rcases List.mem_append.1 hc with hc | hc
      · rcases List.mem_append.1 hc with hc | hc
        · exact (hu c hc).1
        · rw [hPAT1] at hc
          exact (show ∀ x ∈ ("\x7b\x7bpython-major-version\x7d\x7d".data : List Char),
            reprPlain x from by decide) c hc
      · exact (hv c hc).1)
    rw [h]
    simp [List.append_assoc]
  -- the substitution loop
  have hocc1 : occursIn PAT1 (('\'' :: u) ++ (PAT1 ++ (v ++ ['\'']))) = true :=
    occursIn_app_right _ (occursIn_of_isPre (isPre_self_app _ _))
  have hnotin1 : '\x7b' ∉ '\'' :: u := by
    intro hm
    rcases List.mem_cons.1 hm with hm | hm
    · simp at hm
    · exact hbu hm
  have hrepl : pyReplace PAT1 ('\x7b' :: (natToChars 0 ++ ['\x7d']))
      (('\'' :: u) ++ (PAT1 ++ (v ++ ['\'']))) =
      ('\'' :: u) ++ (('\x7b' :: (natToChars 0 ++ ['\x7d'])) ++ (v ++ ['\''])) := by
    refine pyReplace_clean_mid rfl _ _ hnotin1 ?_
    refine occursIn_false_head_notMem ?_
    intro hm
    rcases List.mem_append.1 hm with hm | hm
    · exact hbv hm
    · simp at hm
  have hbb : occursIn ('\x7b' :: ['\x7b'])
      (('\'' :: u) ++ ('\x7b' :: ('0' :: ('\x7d' :: (v ++ ['\'']))))) = false := by
    rw [occursIn_app_no_head _ hnotin1, occursIn_cons]
    have h1 : isPre ('\x7b' :: ['\x7b'])
        ('\x7b' :: ('0' :: ('\x7d' :: (v ++ ['\''])))) = false := by
      simp [isPre]
    have h2 : occursIn ('\x7b' :: ['\x7b'])
        ('0' :: ('\x7d' :: (v ++ ['\'']))) = false := by
      refine occursIn_false_head_notMem ?_
      intro hm
      rcases List.mem_cons.1 hm with hm | hm
      · simp at hm
      rcases List.mem_cons.1 hm with hm | hm
      · simp at hm
      rcases List.mem_append.1 hm with hm | hm
      · exact hbv hm
      · simp at hm
    rw [h1, h2]
    rfl
  have hocc2 : ∀ tl2 : List Char,
      occursIn ('\x7b' :: ('\x7b' :: tl2))
        (('\'' :: u) ++ ('\x7b' :: ('0' :: ('\x7d' :: (v ++ ['\'']))))) = false := by
    intro tl2
    cases hP : occursIn ('\x7b' :: ('\x7b' :: tl2))
        (('\'' :: u) ++ ('\x7b' :: ('0' :: ('\x7d' :: (v ++ ['\'']))))) with
    | false => rfl
    | true =>
      exfalso
      have hmono := occursIn_mono (p := '\x7b' :: ['\x7b'])
        (by simp [isPre]) hP
      rw [hbb] at hmono
      exact Bool.false_ne_true hmono
  have happ : applyVars ENTRTYPOINT_VARS (pyRepr (u ++ PAT1 ++ v)) [] =
      (('\'' :: u) ++ ('\x7b' :: ('0' :: ('\x7d' :: (v ++ ['\''])))),
       ["sys.version[0]".data]) := by
    rw [hrepr]
    show applyVars [("python-major-version".data, "sys.version[0]".data),
      ("python-major-minor-version".data, "sys.version[:3]".data)] _ [] = _
    rw [show applyVars [("python-major-version".data, "sys.version[0]".data),
        ("python-major-minor-version".data, "sys.version[:3]".data)]
        (('\'' :: u) ++ (PAT1 ++ (v ++ ['\'']))) [] =
      if occursIn ("\x7b\x7b".data ++ "python-major-version".data ++ "\x7d\x7d".data)
          (('\'' :: u) ++ (PAT1 ++ (v ++ ['\'']))) = true then
        applyVars [("python-major-minor-version".data, "sys.version[:3]".data)]
          (pyReplace ("\x7b\x7b".data ++ "python-major-version".data ++ "\x7d\x7d".data)
            ('\x7b' :: (natToChars ([] : List (List Char)).length ++ ['\x7d']))
            (('\'' :: u) ++ (PAT1 ++ (v ++ ['\'']))))
          ([] ++ ["sys.version[0]".data])
      else
        applyVars [("python-major-minor-version".data, "sys.version[:3]".data)]
          (('\'' :: u) ++ (PAT1 ++ (v ++ ['\'']))) [] from rfl]
    rw [if_pos (show occursIn ("\x7b\x7b".data ++ "python-major-version".data
        ++ "\x7d\x7d".data) (('\'' :: u) ++ (PAT1 ++ (v ++ ['\'']))) = true from hocc1)]
    have hstep1 : pyReplace ("\x7b\x7b".data ++ "python-major-version".data
        ++ "\x7d\x7d".data) ('\x7b' :: (natToChars ([] : List (List Char)).length
        ++ ['\x7d'])) (('\'' :: u) ++ (PAT1 ++ (v ++ ['\'']))) =
        ('\'' :: u) ++ ('\x7b' :: ('0' :: ('\x7d' :: (v ++ ['\''])))) := by
      rw [show pyReplace ("\x7b\x7b".data ++ "python-major-version".data
        ++ "\x7d\x7d".data) ('\x7b' :: (natToChars ([] : List (List Char)).length
        ++ ['\x7d'])) (('\'' :: u) ++ (PAT1 ++ (v ++ ['\'']))) =
        pyReplace PAT1 ('\x7b' :: (natToChars 0 ++ ['\x7d']))
          (('\'' :: u) ++ (PAT1 ++ (v ++ ['\'']))) from rfl]
      rw [hrepl, show natToChars 0 = ['0'] from by decide]
      simp
    rw [hstep1]
    show applyVars [("python-major-minor-version".data, "sys.version[:3]".data)]
      (('\'' :: u) ++ ('\x7b' :: ('0' :: ('\x7d' :: (v ++ ['\''])))))
      ["sys.version[0]".data] = _
    rw [show applyVars [("python-major-minor-version".data, "sys.version[:3]".data)]
        (('\'' :: u) ++ ('\x7b' :: ('0' :: ('\x7d' :: (v ++ ['\''])))))
        ["sys.version[0]".data] =
      if occursIn ("\x7b\x7b".data ++ "python-major-minor-version".data
          ++ "\x7d\x7d".data)
          (('\'' :: u) ++ ('\x7b' :: ('0' :: ('\x7d' :: (v ++ ['\'']))))) = true then
        applyVars []
          (pyReplace ("\x7b\x7b".data ++ "python-major-minor-version".data
            ++ "\x7d\x7d".data)
            ('\x7b' :: (natToChars (["sys.version[0]".data] : List (List Char)).length
              ++ ['\x7d']))
            (('\'' :: u) ++ ('\x7b' :: ('0' :: ('\x7d' :: (v ++ ['\'']))))))
          (["sys.version[0]".data] ++ ["sys.version[:3]".data])
      else
        applyVars []
          (('\'' :: u) ++ ('\x7b' :: ('0' :: ('\x7d' :: (v ++ ['\''])))))
          ["sys.version[0]".data] from rfl]
    rw [if_neg (by
      rw [show ("\x7b\x7b".data ++ "python-major-minor-version".data
        ++ "\x7d\x7d".data : List Char) =
        '\x7b' :: ('\x7b' :: "python-major-minor-version\x7d\x7d".data) from rfl]
      rw [hocc2]
      simp)]
    rfl
  -- the rendered item line
  have hline : renderEntryItem (u ++ PAT1 ++ v) =
      "      ".data ++ ('\'' :: ((u ++ ('\x7b' :: ('0' :: ('\x7d' :: (v ++
        "'.format(sys.version[0]".data))))) ++ [')'])) ++ [','] := by
    simp only [renderEntryItem, happ]
    rw [if_neg (by simp)]
    rw [show joinSep ", ".data ["sys.version[0]".data] = "sys.version[0]".data from rfl]
    have hshape : (('\'' :: u) ++ ('\x7b' :: ('0' :: ('\x7d' :: (v ++ ['\''])))))
        ++ ".format(".data ++ "sys.version[0]".data ++ ")".data =
        '\'' :: ((u ++ ('\x7b' :: ('0' :: ('\x7d' :: (v ++
          "'.format(sys.version[0]".data))))) ++ [')']) := by
      simp [List.append_assoc]
    rw [hshape, pyStrip_no_ws _ (by decide) (by decide)]
  -- assembling the output
  rw [show render_entrypoints [(g, [u ++ PAT1 ++ v])] =
    joinSep ['\n'] (modifyLast (fun l => l.dropLast)
      ("\x7b".data :: catLists ([(g, [u ++ PAT1 ++ v])].map entrypointGroupLines))
      ++ ["  \x7d".data]) from by
    unfold render_entrypoints
    rw [if_neg (by simp)]]
  rw [show catLists ([(g, [u ++ PAT1 ++ v])].map entrypointGroupLines) =
    ("    ".data ++ pyRepr g ++ ": [".data) ::
      ([renderEntryItem (u ++ PAT1 ++ v)] ++ ["    ],".data]) from by
    simp [entrypointGroupLines, catLists]]
  rw [pyRepr_plain hg, hline]
  show joinSep ['\n'] _ = _
  rw [show modifyLast (fun l => l.dropLast)
      ("\x7b".data :: (("    ".data ++ ('\'' :: (g ++ ['\''])) ++ ": [".data) ::
        ([("      ".data ++ ('\'' :: ((u ++ ('\x7b' :: ('0' :: ('\x7d' :: (v ++
          "'.format(sys.version[0]".data))))) ++ [')'])) ++ [','])] ++ ["    ],".data]))) =
    "\x7b".data :: (("    ".data ++ ('\'' :: (g ++ ['\''])) ++ ": [".data) ::
      (("      ".data ++ ('\'' :: ((u ++ ('\x7b' :: ('0' :: ('\x7d' :: (v ++
        "'.format(sys.version[0]".data))))) ++ [')'])) ++ [',']) ::
        ["    ]".data])) from by
    simp [modifyLast]]
  rw [show ∀ (l2 l3 : List Char), joinSep ['\n']
      ("\x7b".data :: (l2 :: (l3 :: ["    ]".data])) ++ ["  \x7d".data]) =
      "\x7b".data ++ ['\n'] ++ (l2 ++ ['\n'] ++ (l3 ++ ['\n'] ++
        ("    ]".data ++ ['\n'] ++ "  \x7d".data))) from by
    intro l2 l3
    simp [joinSep, List.append_assoc]]
  -- both sides are the same chunk sequence; split the right-hand literals
  rw [show ("\x7b\n    '".data : List Char) =
    "\x7b".data ++ ['\n'] ++ ("    ".data ++ ['\'']) from rfl]
  rw [show ("': [\n      '".data : List Char) =
    ['\''] ++ ": [".data ++ ['\n'] ++ ("      ".data ++ ['\'']) from rfl]
  rw [show ("'.format(sys.version[0]),\n    ]\n  \x7d".data : List Char) =
    "'.format(sys.version[0]".data ++ [')'] ++ [','] ++ ['\n'] ++
      ("    ]".data ++ ['\n'] ++ "  \x7d".data) from rfl]
  simp [List.append_assoc]

/-- Witness for C7: the spec `shore{{python-major-version}} = shore:cli` in the
`console_scripts` group renders with the `{0}` slot and the run-time
`.format(sys.version[0])` call. -/
theorem entrypoints_placeholder_deferred_witness :
    (∀ c ∈ "console_scripts".data, reprPlain c)
    ∧ (∀ c ∈ "shore".data, reprPlain c ∧ c ≠ '\x7b')
    ∧ (∀ c ∈ " = shore:cli".data, reprPlain c ∧ c ≠ '\x7b')
    ∧ render_entrypoints
        [("console_scripts".data,
          ["shore".data ++ "\x7b\x7bpython-major-version\x7d\x7d".data
            ++ " = shore:cli".data])]
      = "\x7b\n    '".data ++ "console_scripts".data ++ "': [\n      '".data
          ++ "shore".data ++ "\x7b0\x7d".data ++ " = shore:cli".data
          ++ "'.format(sys.version[0]),\n    ]\n  \x7d".data := by
  refine ⟨by decide, by decide, by decide, ?_⟩
  exact (entrypoints_placeholder_deferred "console_scripts".data "shore".data
    " = shore:cli".data (by decide) (by decide) (by decide)).1

/-- Counterexample for C7: a mapping with one group whose spec list is empty —
so no group has any specs — still renders as a group with an empty list
literal, not as the inline empty-mapping literal `{}`. -/
theorem entrypoints_empty_group_cex :
    render_entrypoints [("console_scripts".data, [])] ≠ "\x7b\x7d".data := by
  decide

/-- Witness for C10: the concrete collision `"x%%%%y"` versus `"x\n\ny"`. -/
theorem render_description_sentinel_collision_witness :
    (∀ ch ∈ "x".data, ch ≠ '\n' ∧ ch ≠ '%')
    ∧ (∀ ch ∈ "y".data, ch ≠ '\n' ∧ ch ≠ '%')
    ∧ render_description ("x".data ++ "%%%%".data ++ "y".data) =
        render_description ("x".data ++ "\n\n".data ++ "y".data)
    ∧ "x".data ++ "%%%%".data ++ "y".data ≠ "x".data ++ "\n\n".data ++ "y".data := by
  refine ⟨by decide, by decide, ?_, ?_⟩
  · exact (render_description_sentinel_collision "x".data "y".data
      (by decide) (by decide)).1
  · decide

end Shut
